import Mathlib

set_option maxRecDepth 8000

/-!
Shallow embedding of `src/kittenreaper.py` (the briar-patch "kitten reaper").

The embedding maps the program's pieces to Lean definitions as follows.

* String handling is done at the character-list level (`String.data`),
  with `occursIn`/`strContains` embedding Python's `pat in s` substring
  test and `splitChar` embedding `str.split(sep)` with an explicit
  separator (empty segments kept, as in Python).
* `Options` mirrors the flat configuration object built from
  `_defaultOptions` (lines 53-67); `defaultOptions` carries the documented
  defaults.  The compiled regex `reFilter = re.compile(options.filterbase %
  options.filter)` is an external collaborator (the `re` module), so the
  candidate loop takes the compiled matcher abstractly as an
  `Option (String -> Bool)` search predicate.
* The remote-control capability (`releng.remote.RemoteSlave`) is an
  external collaborator; `RemoteEnv` records the answers the remote side
  would give (whether the session is established, the tac files present,
  the log tails, whether graceful shutdown succeeds).  `Op` records each
  remote operation the state machine performs, in order, so the theorems
  can speak about which remote interactions happen.
* `checkKitten` (lines 70-118) is the per-host reboot state machine; its
  shutdown poll loop (lines 102-118) is `pollLoop`/`pollShutdown`, written
  with a structural fuel argument equal to `30 - count` so that the
  `count >= 30` give-up test of the source is the live exit condition.
* `loadCache`/`writeCache` (lines 131-150) are the dedup cache.  Python
  `datetime` values at seconds precision are the `DateTime` record;
  `fmtList` embeds `strftime('%Y-%m-%dT%H:%M:%S')` and `parseDTList`
  embeds `strptime` of the same format.  `now - ts` on whole-second
  datetimes equals `elapsed.days * 86400 + elapsed.seconds`, embedded as
  `elapsedSecs` via a day-count conversion.  The cache file is modelled as
  its list of lines (the trailing `'\n'` written by `writeCache` and
  stripped by `s.strip()` on load is the line separator of this model).
  The Python dict built by `loadCache` is an association list built with
  `upsert` (later lines overwrite earlier ones with the same key).
* The `__main__` candidate loop (lines 209-236) is
  `extractKitten`/`afterPattern`/`candidateStep`/`runFilter`.  A
  `KeyError` on `slaves[kitten]` aborts the run; `runFilter` returns the
  identifiers enqueued before the abort together with the offending
  identifier.  `runDispatch` additionally runs the state machine on every
  accepted identifier, and `processKittensStep` is one body of the worker
  loop `processKittens` (lines 120-129).
-/

/-- Substring test at character level: does `pat` occur inside `s`?
Embeds Python's `pat in s` on strings (an empty pattern always occurs). -/
def occursIn (pat : List Char) : List Char → Bool
  | [] => pat.isEmpty
  | c :: rest => pat.isPrefixOf (c :: rest) || occursIn pat rest

/-- `strContains s pat` embeds Python's `pat in s` for strings. -/
def strContains (s pat : String) : Bool := occursIn pat.data s.data

/-- Split a character list at every occurrence of `sep`, keeping empty
segments.  Embeds Python's `str.split(sep)` with an explicit separator. -/
def splitChar (sep : Char) : List Char → List (List Char)
  | [] => [[]]
  | c :: rest =>
    match splitChar sep rest with
    | [] => [[]]
    | grp :: grps => if c = sep then [] :: grp :: grps else (c :: grp) :: grps

/-- The flat configuration object assembled by `initOptions` from
`_defaultOptions` (src lines 53-67).  `klass` is the `--class` option
(`class` is a Lean keyword).  The regex filter is kept as the raw pattern
string; its compiled form is passed separately where needed, since the
`re` module is an external collaborator. -/
structure Options where
  config : Option String
  debug : Bool
  background : Bool
  logpath : Option String
  kittens : Option String
  filter : Option String
  klass : Option String
  workers : Nat
  dryrun : Bool
  filterbase : String
  username : String
  password : Option String
  cachefile : Option String
  force : Bool

/-- The documented defaults of `_defaultOptions`. -/
def defaultOptions : Options where
  config := none
  debug := true
  background := false
  logpath := none
  kittens := none
  filter := none
  klass := none
  workers := 4
  dryrun := false
  filterbase := "^%s"
  username := "cltbld"
  password := none
  cachefile := none
  force := false

/-- One inventory record of the slavealloc lookup: `slaves[name]` with its
`enabled` flag and `notes` field (`None` notes normalized to `''`,
src lines 177-180). -/
structure SlaveRecord where
  enabled : Bool
  notes : String
deriving DecidableEq

/-- A remote operation performed through the `RemoteSlave` session, in the
order `checkKitten` issues them. -/
inductive Op where
  | connect
  | wait
  | reboot
  | findTacfiles
  | tailLog (n : Nat)
  | graceful
  | sleep
deriving DecidableEq

/-- The answers of the remote side, consumed abstractly by the state
machine: whether the control session comes up (`sc.slave is not None`),
the tac files found, the 10-line log tail of the `TailLog` step, whether
`graceful_shutdown()` succeeds, and the 5-line tail fetched on each poll
iteration (indexed by the iteration counter). -/
structure RemoteEnv where
  connects : Bool
  tacfiles : List String
  tail10 : String
  gracefulOk : Bool
  pollTail : Nat → String

/-- Result of the shutdown poll loop (src lines 102-118). -/
inductive PollOutcome where
  | reboot (iteration : Nat)
  | timeout
deriving DecidableEq

/-- Terminal outcome of `checkKitten` for one host. -/
inductive Outcome where
  | dryRun
  | unreachable
  | disabledByBug
  | noTacfile
  | rebootedStopped
  | shutdownRefused
  | pollTimeout
  | rebootedAfterPoll (iteration : Nat)
deriving DecidableEq

/-- The poll-exit test of src line 114: the 5-line tail is empty, or
mentions "Main loop terminated", or mentions "ProcessExitedAlready". -/
def shutdownSignal (data : String) : Bool :=
  data == "" || strContains data "Main loop terminated" ||
    strContains data "ProcessExitedAlready"

/-- The `while True` shutdown poll of src lines 102-118.  `count` is the
counter before the `count += 1` of the next iteration; `fuel` is kept
equal to `30 - count` so the recursion is structural, and the live exit
is the source's own `count >= 30` test.  The returned operations are the
remote interactions of the loop (`tailLog 5` per probe, `sleep` between
iterations, the final `tailLog 10` of the give-up branch). -/
def pollLoop (tailF : Nat → String) : Nat → Nat → PollOutcome × List Op
  | 0, _ => (.timeout, [.tailLog 10])
  | fuel + 1, count =>
    if 30 ≤ count + 1 then (.timeout, [.tailLog 10])
    else if shutdownSignal (tailF (count + 1)) then
      (.reboot (count + 1), [.tailLog 5, .reboot])
    else
      let r := pollLoop tailF fuel (count + 1)
      (r.1, .tailLog 5 :: .sleep :: r.2)

/-- The shutdown poll started with `count = 0`. -/
def pollShutdown (tailF : Nat → String) : PollOutcome × List Op :=
  pollLoop tailF 30 0

/-- The regex `^buildbot.tac.bug(\d+)$` of src line 85 (unescaped dots
match any character; `re.match` anchors at the start, `$` at the end). -/
def isBugTac (t : String) : Bool :=
  let cs := t.data
  (cs.take 8 == "buildbot".data) &&
    ((cs.drop 9).take 3 == "tac".data) &&
    ((cs.drop 13).take 3 == "bug".data) &&
    !(cs.drop 16).isEmpty && (cs.drop 16).all Char.isDigit

/-- The per-host reboot state machine `checkKitten` (src lines 70-118),
returning its terminal outcome and the ordered list of remote operations
it performed.  The `username`/`password` options feed only the connect
step and are part of `RemoteEnv.connects`. -/
def checkKitten (hostname : String) (options : Options) (env : RemoteEnv) :
    Outcome × List Op :=
  if options.dryrun then (.dryRun, [])
  else if env.connects = false then (.unreachable, [.connect])
  else
    let classifyOp : Op := if strContains hostname "tegra" then .reboot else .wait
    let pre : List Op := [.connect, classifyOp, .findTacfiles]
    if env.tacfiles.contains "buildbot.tac" = false then
      match env.tacfiles.find? isBugTac with
      | some _ => (.disabledByBug, pre)
      | none => (.noTacfile, pre)
    else
      if strContains env.tail10 "Stopping factory" then
        (.rebootedStopped, pre ++ [.tailLog 10, .reboot])
      else if env.gracefulOk = false then
        (.shutdownRefused, pre ++ [.tailLog 10, .graceful])
      else
        let pr := pollShutdown env.pollTail
        let oc : Outcome :=
          match pr.1 with
          | PollOutcome.timeout => Outcome.pollTimeout
          | PollOutcome.reboot c => Outcome.rebootedAfterPoll c
        (oc, pre ++ [.tailLog 10, .graceful] ++ pr.2)

/-- One body of the worker loop `processKittens` (src lines 120-129) for a
dequeued job: run `checkKitten`, then put the job identifier on the result
channel.  The returned list is what this iteration enqueues to
`resultQueue`. -/
def processKittensStep (options : Options) (env : RemoteEnv) (job : String) :
    Outcome × List String :=
  ((checkKitten job options env).1, [job])

/-- A Python `datetime` at seconds precision, as read and written by the
cache with format `%Y-%m-%dT%H:%M:%S`. -/
structure DateTime where
  year : Nat
  month : Nat
  day : Nat
  hour : Nat
  minute : Nat
  second : Nat
deriving DecidableEq

/-- The ranges `strftime`/`strptime` work over at this format (real
datetimes also satisfy the per-month day bounds, which the cache never
needs). -/
def ValidDateTime (dt : DateTime) : Prop :=
  1000 ≤ dt.year ∧ dt.year ≤ 9999 ∧ 1 ≤ dt.month ∧ dt.month ≤ 12 ∧
    1 ≤ dt.day ∧ dt.day ≤ 31 ∧ dt.hour ≤ 23 ∧ dt.minute ≤ 59 ∧ dt.second ≤ 59

instance (dt : DateTime) : Decidable (ValidDateTime dt) := by
  unfold ValidDateTime; infer_instance

/-- Decimal digit character. -/
def digitChar (n : Nat) : Char := Char.ofNat (48 + n)

/-- Numeric value of a digit character. -/
def dval (c : Char) : Nat := c.toNat - 48

/-- Parse two digit characters as a two-digit number. -/
def digit2 (a b : Char) : Option Nat :=
  if a.isDigit && b.isDigit then some (dval a * 10 + dval b) else none

/-- Parse four digit characters as a four-digit number. -/
def digit4 (a b c d : Char) : Option Nat :=
  if a.isDigit && b.isDigit && c.isDigit && d.isDigit then
    some (((dval a * 10 + dval b) * 10 + dval c) * 10 + dval d)
  else none

/-- Two-digit zero-padded rendering (`%m`, `%d`, `%H`, `%M`, `%S`). -/
def pad2L (n : Nat) : List Char := [digitChar (n / 10), digitChar (n % 10)]

/-- Four-digit rendering of the year (`%Y` for years 1000-9999). -/
def pad4L (n : Nat) : List Char :=
  [digitChar (n / 1000), digitChar (n / 100 % 10), digitChar (n / 10 % 10),
    digitChar (n % 10)]

/-- `strftime('%Y-%m-%dT%H:%M:%S')` as a character list (src line 149). -/
def fmtList (dt : DateTime) : List Char :=
  pad4L dt.year ++ '-' :: (pad2L dt.month ++ '-' :: (pad2L dt.day ++
    'T' :: (pad2L dt.hour ++ ':' :: (pad2L dt.minute ++ ':' :: pad2L dt.second))))

/-- `datetime.strptime(s, '%Y-%m-%dT%H:%M:%S')` (src line 136): exactly the
19-character shape, digits in every numeric position, fields in range;
anything else is a malformed line. -/
def parseDTList (cs : List Char) : Option DateTime :=
  match cs with
  | [y1, y2, y3, y4, s1, m1, m2, s2, d1, d2, s3, h1, h2, s4, n1, n2, s5, e1, e2] =>
    if s1 = '-' ∧ s2 = '-' ∧ s3 = 'T' ∧ s4 = ':' ∧ s5 = ':' then
      match digit4 y1 y2 y3 y4, digit2 m1 m2, digit2 d1 d2, digit2 h1 h2,
          digit2 n1 n2, digit2 e1 e2 with
      | some y, some mo, some d, some h, some mi, some s =>
        if 1 ≤ mo ∧ mo ≤ 12 ∧ 1 ≤ d ∧ d ≤ 31 ∧ h ≤ 23 ∧ mi ≤ 59 ∧ s ≤ 59 then
          some ⟨y, mo, d, h, mi, s⟩
        else none
      | _, _, _, _, _, _ => none
    else none
  | _ => none

/-- Day number of a proleptic-Gregorian civil date (era-based civil-date
algorithm); only differences of `toSecs` values are ever used, embedding
`datetime` subtraction. -/
def daysFromCivil (y m d : Nat) : Nat :=
  let y2 := if m ≤ 2 then y - 1 else y
  let era := y2 / 400
  let yoe := y2 - era * 400
  let doy := (153 * (if 2 < m then m - 3 else m + 9) + 2) / 5 + (d - 1)
  let doe := yoe * 365 + yoe / 4 - yoe / 100 + doy
  era * 146097 + doe

/-- Seconds-since-era of a `DateTime`. -/
def toSecs (dt : DateTime) : Nat :=
  daysFromCivil dt.year dt.month dt.day * 86400 + dt.hour * 3600 +
    dt.minute * 60 + dt.second

/-- `now - ts` followed by `elapsed.days * 86400 + elapsed.seconds`
(src lines 138-139); exact for whole-second datetimes. -/
def elapsedSecs (now ts : DateTime) : Int :=
  (toSecs now : Int) - (toSecs ts : Int)

/-- Python dict assignment `result[kitten] = ts` on an association list:
overwrite the existing binding, or append a new one. -/
def upsert (m : List (String × DateTime)) (k : String) (v : DateTime) :
    List (String × DateTime) :=
  if m.any (fun p => p.1 == k) then
    m.map (fun p => if p.1 == k then (k, v) else p)
  else m ++ [(k, v)]

/-- Fold step of `loadCache`: keep the entry only when `seconds <= 3600`
(src line 140), then store it in the dict. -/
def cacheInsertFresh (now : DateTime) (m : List (String × DateTime))
    (e : String × DateTime) : List (String × DateTime) :=
  if elapsedSecs now e.2 ≤ 3600 then upsert m e.1 e.2 else m

/-- The dict built by `loadCache` from the already-parsed entries, in file
order. -/
def loadCacheEntries (now : DateTime) (entries : List (String × DateTime)) :
    List (String × DateTime) :=
  entries.foldl (cacheInsertFresh now) []

/-- One line of the cache file: `kitten, s = item.split(' ')` must yield
exactly two pieces, and `s` must parse as a timestamp (src lines 135-136);
otherwise the line is malformed and the whole load fails. -/
def parseCacheLine (line : String) : Option (String × DateTime) :=
  match splitChar ' ' line.data with
  | [k, s] =>
    match parseDTList s with
    | some dt => some (String.mk k, dt)
    | none => none
  | _ => none

/-- Parse every line of the cache file; a single malformed line fails the
whole load (the `ValueError`/`strptime` exception propagates). -/
def parseLines : List String → Option (List (String × DateTime))
  | [] => some []
  | l :: ls =>
    match parseCacheLine l, parseLines ls with
    | some e, some es => some (e :: es)
    | _, _ => none

/-- `loadCache` (src lines 131-143) over the file's lines. -/
def loadCache (now : DateTime) (lines : List String) :
    Option (List (String × DateTime)) :=
  match parseLines lines with
  | some es => some (loadCacheEntries now es)
  | none => none

/-- One line written by `writeCache`: `'%s %s\n' % (kitten, strftime)`;
the trailing newline is the line separator of this file model. -/
def cacheLine (p : String × DateTime) : String :=
  String.mk (p.1.data ++ ' ' :: fmtList p.2)

/-- `writeCache` (src lines 145-150): one line per cache entry. -/
def writeCache (cache : List (String × DateTime)) : List String :=
  cache.map cacheLine

/-- Identifier extraction of the candidate loop (src lines 211-214):
the text before the first comma if the line has one, otherwise the whole
line unchanged. -/
def extractKitten (item : String) : String :=
  if item.data.contains ',' then String.mk ((splitChar ',' item.data).headD [])
  else item

/-- What the spec's words ask of step 1 of the candidate filter: "text
before first comma, or whole trimmed line".  Stated for comparison with
`extractKitten`; `stripWS` is Python's `str.strip()` on default
whitespace. -/
def stripWS (cs : List Char) : List Char :=
  ((cs.dropWhile fun c => c == ' ' || c == '\t' || c == '\n' || c == '\r').reverse.dropWhile
    fun c => c == ' ' || c == '\t' || c == '\n' || c == '\r').reverse

/-- Spec-side extraction ("text before first comma, or whole trimmed
line"), to be compared with the source's `extractKitten`. -/
def specExtractKitten (item : String) : String :=
  if item.data.contains ',' then String.mk ((splitChar ',' item.data).headD [])
  else String.mk (stripWS item.data)

/-- The pattern step of the candidate loop (src lines 216-217): the
extracted identifier survives only if the compiled filter (if any) finds a
match.  `reFilter` is the abstract search predicate of the compiled
regex. -/
def afterPattern (reFilter : Option (String → Bool)) (item : String) :
    Option String :=
  let kitten := extractKitten item
  match reFilter with
  | some f => if f kitten then some kitten else none
  | none => some kitten

/-- Verdict of the candidate loop body for one raw line. -/
inductive StepResult where
  | accept (kitten : String)
  | skip
  | fatal (kitten : String)
deriving DecidableEq

/-- The per-line body of the `__main__` candidate loop (src lines 209-236):
pattern step, inventory lookup (a missing identifier raises `KeyError` and
is fatal), skip when not enabled or when notes are present, then the seen
cache versus `--force` decision. -/
def candidateStep (slaves : String → Option SlaveRecord)
    (seenCache : List (String × DateTime)) (reFilter : Option (String → Bool))
    (force : Bool) (item : String) : StepResult :=
  match afterPattern reFilter item with
  | none => .skip
  | some kitten =>
    match slaves kitten with
    | none => .fatal kitten
    | some r =>
      if r.enabled = false then .skip
      else if 0 < r.notes.length then .skip
      else if seenCache.any (fun p => p.1 == kitten) && !force then .skip
      else .accept kitten

/-- The whole candidate loop: the identifiers enqueued to `workQueue`, in
input order, together with the identifier whose inventory lookup aborted
the run (if any).  On an abort the identifiers already enqueued are kept
and no later line is examined. -/
def runFilter (slaves : String → Option SlaveRecord)
    (seenCache : List (String × DateTime)) (reFilter : Option (String → Bool))
    (force : Bool) : List String → List String × Option String
  | [] => ([], none)
  | item :: rest =>
    match candidateStep slaves seenCache reFilter force item with
    | .fatal k => ([], some k)
    | .skip => runFilter slaves seenCache reFilter force rest
    | .accept k =>
      let r := runFilter slaves seenCache reFilter force rest
      (k :: r.1, r.2)

/-- The filter followed by the per-host state machine on every accepted
identifier: the observable dispatch behaviour of one run.  `envs` gives
each host's remote environment. -/
def runDispatch (options : Options) (compiled : Option (String → Bool))
    (slaves : String → Option SlaveRecord) (seenCache : List (String × DateTime))
    (items : List String) (envs : String → RemoteEnv) :
    (List String × Option String) × List (Outcome × List Op) :=
  let fr := runFilter slaves seenCache compiled options.force items
  (fr, fr.1.map fun k => checkKitten k options (envs k))

/-! ### The shutdown poll loop (claim C3) -/

/-- Case analysis of the shutdown poll loop: starting at counter `count`
with fuel `30 - count`, the loop either reboots at some iteration that
signalled shutdown, or times out having seen no signal at any iteration
it probed. -/
theorem pollLoop_cases (tailF : Nat → String) :
    ∀ fuel count : Nat, count + fuel = 30 →
    (∃ c, count < c ∧ c < 30 ∧
      (pollLoop tailF fuel count).1 = PollOutcome.reboot c ∧
      shutdownSignal (tailF c) = true) ∨
    ((pollLoop tailF fuel count).1 = PollOutcome.timeout ∧
      ∀ c, count < c → c < 30 → shutdownSignal (tailF c) = false)
  | 0, count, h => by
      right
      refine ⟨rfl, ?_⟩
      intro c h1 h2
      omega
  | fuel + 1, count, h => by
      by_cases h30 : 30 ≤ count + 1
      · right
        constructor
        · simp [pollLoop, h30]
        · intro c h1 h2; omega
      · cases hs : shutdownSignal (tailF (count + 1)) with
        | true =>
          left
          exact ⟨count + 1, Nat.lt_succ_self count, by omega,
            by simp [pollLoop, h30, hs], hs⟩
        | false =>
          have heq : (pollLoop tailF (fuel + 1) count).1 =
              (pollLoop tailF fuel (count + 1)).1 := by
            simp [pollLoop, h30, hs]
          rcases pollLoop_cases tailF fuel (count + 1) (by omega) with
            ⟨c, hc1, hc2, hc3, hc4⟩ | ⟨ht, hall⟩
          · left
            exact ⟨c, by omega, hc2, by rw [heq]; exact hc3, hc4⟩
          · right
            refine ⟨by rw [heq]; exact ht, ?_⟩
            intro c h1 h2
            by_cases hceq : c = count + 1
            · subst hceq; exact hs
            · exact hall c (by omega) h2

/-- C3: the PollShutdown loop always terminates.  Either some iteration
`c` (at most 29 probes happen, on iterations 1 through 29) fetched a tail
that was empty or contained a "Main loop terminated" or
"ProcessExitedAlready" marker and the loop rebooted there, or no probed
iteration signalled and the loop gave up when the counter reached 30. -/
theorem pollShutdown_terminates :
    ∀ tailF : Nat → String,
    (∃ c, 1 ≤ c ∧ c < 30 ∧
      (pollShutdown tailF).1 = PollOutcome.reboot c ∧
      shutdownSignal (tailF c) = true) ∨
    ((pollShutdown tailF).1 = PollOutcome.timeout ∧
      ((List.range 29).all fun i => !shutdownSignal (tailF (i + 1))) = true) := by
  intro tailF
  rcases pollLoop_cases tailF 30 0 rfl with ⟨c, h1, h2, h3, h4⟩ | ⟨ht, hall⟩
  · left
    exact ⟨c, h1, h2, h3, h4⟩
  · right
    refine ⟨ht, ?_⟩
    simp only [List.all_eq_true, List.mem_range]
    intro i hi
    have hsig := hall (i + 1) (by omega) (by omega)
    simp [hsig]

/-! ### The tegra branch of the state machine (claim C1) -/

/-- C1 is contradicted by the code: for host `"tegra-050"` (dry-run off,
reachable slave, standard `buildbot.tac` present, empty log tails,
graceful shutdown accepted) the state machine skips AwaitIdle and issues
the Classify reboot, but then CONTINUES: it lists the marker files, tails
the log, requests a graceful shutdown, and issues a second reboot.  The
`sc.slave.reboot()` of the tegra branch (src line 77) is the only reboot
call not followed by a `return`/`break`, so Reboot reached from Classify
is not terminal as the claim (and spec section 4.3) state. -/
theorem tegra_reboot_not_terminal :
    checkKitten "tegra-050" defaultOptions
        ⟨true, ["buildbot.tac"], "", true, fun _ => ""⟩ =
      (Outcome.rebootedAfterPoll 1,
        [Op.connect, Op.reboot, Op.findTacfiles, Op.tailLog 10, Op.graceful,
          Op.tailLog 5, Op.reboot]) := by decide

/-! ### The worker loop body (claim C7) -/

/-- C7: for every dequeued job, every configuration and every remote
environment, the state machine reaches one of its terminal outcomes
(dry-run, connect failure, disabled-by-bug marker, missing marker,
already-disconnected reboot, shutdown refused, poll timeout, or reboot
after polling) and the worker loop body enqueues the job's identifier to
the result channel exactly once, whether or not a reboot occurred. -/
theorem worker_reports_every_outcome_once :
    ∀ (options : Options) (env : RemoteEnv) (job : String),
    (∃ o, processKittensStep options env job = (o, [job]) ∧
      (o = Outcome.dryRun ∨ o = Outcome.unreachable ∨
        o = Outcome.disabledByBug ∨ o = Outcome.noTacfile ∨
        o = Outcome.rebootedStopped ∨ o = Outcome.shutdownRefused ∨
        o = Outcome.pollTimeout ∨ ∃ c, o = Outcome.rebootedAfterPoll c)) ∧
    (processKittensStep options env job).2.count job = 1 := by
  intro options env job
  constructor
  · refine ⟨(checkKitten job options env).1, rfl, ?_⟩
    cases (checkKitten job options env).1 <;> simp
  · simp [processKittensStep]

/-! ### The unused class option (claim C10) -/

/-- C10: the `--class` option is declared in the configuration surface
(`Options.klass`, from `_defaultOptions`) but never consulted: two runs
whose configurations differ only in it produce the same accepted
identifier sequence, the same fatal-lookup behaviour, and identical
per-host state-machine behaviour. -/
theorem class_option_never_consulted :
    ∀ (options : Options) (c : Option String)
      (compiled : Option (String → Bool)) (slaves : String → Option SlaveRecord)
      (seenCache : List (String × DateTime)) (items : List String)
      (envs : String → RemoteEnv),
    runDispatch { options with klass := c } compiled slaves seenCache items envs =
      runDispatch options compiled slaves seenCache items envs := by
  intro options c compiled slaves seenCache items envs
  rfl

/-! ### The candidate filter loop (claims C2, C5, C8) -/

/-- A string other than `""` has positive length. -/
lemma length_pos_of_ne_empty : ∀ s : String, s ≠ "" → 0 < s.length
  | ⟨[]⟩, h => absurd rfl h
  | ⟨c :: cs⟩, _ => by simp [String.length]

/-- Inversion of an accepting candidate step: an accepted identifier has
an inventory record that is enabled and has an empty notes field. -/
lemma candidateStep_accept_inv (slaves : String → Option SlaveRecord)
    (seenCache : List (String × DateTime)) (reFilter : Option (String → Bool))
    (force : Bool) (item k : String)
    (h : candidateStep slaves seenCache reFilter force item = StepResult.accept k) :
    ∃ r, slaves k = some r ∧ r.enabled = true ∧ r.notes.length = 0 := by
  unfold candidateStep at h
  split at h
  · cases h
  · split at h
    · cases h
    · rename_i r hS
      split at h
      · cases h
      · rename_i he
        split at h
        · cases h
        · rename_i hn
          split at h
          · cases h
          · cases h
            have hen : r.enabled = true := by
              cases hb : r.enabled
              · exact absurd hb he
              · rfl
            exact ⟨r, hS, hen, by omega⟩

/-- C2: a host whose inventory record is not enabled, or whose notes
field is non-empty, is never enqueued to the work channel — for every
candidate list, every filter pattern and either value of the force
flag. -/
theorem disabled_or_noted_never_enqueued :
    ∀ (slaves : String → Option SlaveRecord)
      (seenCache : List (String × DateTime)) (reFilter : Option (String → Bool))
      (force : Bool) (items : List String) (k : String) (rec : SlaveRecord),
    slaves k = some rec → (rec.enabled = false ∨ rec.notes ≠ "") →
    ¬ k ∈ (runFilter slaves seenCache reFilter force items).1 := by
  intro slaves seenCache reFilter force items k rec hrec hbad
  induction items with
  | nil => simp [runFilter]
  | cons item rest ih =>
    cases hstep : candidateStep slaves seenCache reFilter force item with
    | fatal k2 => simp [runFilter, hstep]
    | skip => simpa [runFilter, hstep] using ih
    | accept k2 =>
      have hr : runFilter slaves seenCache reFilter force (item :: rest) =
          (k2 :: (runFilter slaves seenCache reFilter force rest).1,
            (runFilter slaves seenCache reFilter force rest).2) := by
        simp [runFilter, hstep]
      rw [hr]
      intro hmem
      rcases List.mem_cons.mp hmem with rfl | hm
      · obtain ⟨r, hSr, hen, hlen⟩ :=
          candidateStep_accept_inv slaves seenCache reFilter force item k hstep
        rw [hrec] at hSr
        injection hSr with hre
        rcases hbad with hb | hb
        · rw [hre, hen] at hb
          simp at hb
        · have hpos := length_pos_of_ne_empty rec.notes hb
          rw [hre] at hpos
          omega
      · exact ih hm

/-- Witness for C2 at a concrete input: a disabled host `"b"` is not
enqueued. -/
theorem disabled_never_enqueued_witness :
    ¬ "b" ∈ (runFilter
        (fun k => if k = "b" then some ⟨false, ""⟩ else some ⟨true, ""⟩)
        [] none false ["a", "b"]).1 :=
  disabled_or_noted_never_enqueued
    (fun k => if k = "b" then some ⟨false, ""⟩ else some ⟨true, ""⟩)
    [] none false ["a", "b"] "b" ⟨false, ""⟩ (by decide) (Or.inl rfl)

/-- C5: a candidate that passes the pattern, enabled and notes checks and
whose identifier is in the seen cache is enqueued exactly when `--force`
is set: rejected with `force = false`, accepted with `force = true`. -/
theorem seen_cache_force_behavior :
    ∀ (slaves : String → Option SlaveRecord)
      (seenCache : List (String × DateTime)) (reFilter : Option (String → Bool))
      (item k : String) (r : SlaveRecord),
    afterPattern reFilter item = some k → slaves k = some r →
    r.enabled = true → r.notes = "" →
    seenCache.any (fun p => p.1 == k) = true →
    runFilter slaves seenCache reFilter true [item] = ([k], none) ∧
    runFilter slaves seenCache reFilter false [item] = ([], none) := by
  intro slaves seenCache reFilter item k r hap hS he hn hc
  have hlen : r.notes.length = 0 := by rw [hn]; rfl
  constructor
  · have hstep : candidateStep slaves seenCache reFilter true item =
        StepResult.accept k := by
      unfold candidateStep
      simp [hap, hS, he, hlen]
    simp [runFilter, hstep]
  · have hstep : candidateStep slaves seenCache reFilter false item =
        StepResult.skip := by
      unfold candidateStep
      simp [hap, hS, he, hlen, hc]
    simp [runFilter, hstep]

/-- Witness for C5 at a concrete input: host `"a"` is in the cache, and
is enqueued exactly when forced. -/
theorem seen_cache_force_witness :
    runFilter (fun _ => some ⟨true, ""⟩) [("a", ⟨2020, 1, 2, 3, 4, 5⟩)]
        none true ["a"] = (["a"], none) ∧
    runFilter (fun _ => some ⟨true, ""⟩) [("a", ⟨2020, 1, 2, 3, 4, 5⟩)]
        none false ["a"] = ([], none) :=
  seen_cache_force_behavior (fun _ => some ⟨true, ""⟩)
    [("a", ⟨2020, 1, 2, 3, 4, 5⟩)] none "a" "a" ⟨true, ""⟩
    (by decide) rfl rfl rfl (by decide)

/-- Splitting the candidate list around an abort-free prefix. -/
lemma runFilter_append (slaves : String → Option SlaveRecord)
    (seenCache : List (String × DateTime)) (reFilter : Option (String → Bool))
    (force : Bool) :
    ∀ pre rest : List String,
    (runFilter slaves seenCache reFilter force pre).2 = none →
    runFilter slaves seenCache reFilter force (pre ++ rest) =
      ((runFilter slaves seenCache reFilter force pre).1 ++
        (runFilter slaves seenCache reFilter force rest).1,
       (runFilter slaves seenCache reFilter force rest).2)
  | [], rest, _ => by simp [runFilter]
  | item :: pre, rest, h => by
    cases hstep : candidateStep slaves seenCache reFilter force item with
    | fatal k => exfalso; simp [runFilter, hstep] at h
    | skip =>
      have h2 : (runFilter slaves seenCache reFilter force pre).2 = none := by
        simpa [runFilter, hstep] using h
      have ih := runFilter_append slaves seenCache reFilter force pre rest h2
      simpa [runFilter, hstep] using ih
    | accept k =>
      have h2 : (runFilter slaves seenCache reFilter force pre).2 = none := by
        simpa [runFilter, hstep] using h
      have ih := runFilter_append slaves seenCache reFilter force pre rest h2
      simp [runFilter, hstep, ih]

/-- C8: a candidate that passes the filter-pattern step but is absent
from the inventory aborts the run at that candidate: the identifiers
enqueued so far are kept, the abort is recorded, and no later candidate
is examined (the result is independent of `post`). -/
theorem unknown_inventory_fatal :
    ∀ (slaves : String → Option SlaveRecord)
      (seenCache : List (String × DateTime)) (reFilter : Option (String → Bool))
      (force : Bool) (pre : List String) (item : String) (post : List String)
      (k : String),
    afterPattern reFilter item = some k → slaves k = none →
    (runFilter slaves seenCache reFilter force pre).2 = none →
    runFilter slaves seenCache reFilter force (pre ++ item :: post) =
      ((runFilter slaves seenCache reFilter force pre).1, some k) := by
  intro slaves seenCache reFilter force pre item post k hap hS hpre
  have hstep : candidateStep slaves seenCache reFilter force item =
      StepResult.fatal k := by
    unfold candidateStep
    simp [hap, hS]
  rw [runFilter_append slaves seenCache reFilter force pre (item :: post) hpre]
  simp [runFilter, hstep]

/-- Witness for C8 at a concrete input: candidate `"x"` is missing from
the inventory; `"a"` stays enqueued, `"b"` is never examined. -/
theorem unknown_inventory_fatal_witness :
    runFilter (fun q => if q = "x" then none else some ⟨true, ""⟩)
        [] none false (["a"] ++ "x" :: ["b"]) =
      ((runFilter (fun q => if q = "x" then none else some ⟨true, ""⟩)
          [] none false ["a"]).1, some "x") :=
  unknown_inventory_fatal (fun q => if q = "x" then none else some ⟨true, ""⟩)
    [] none false ["a"] "x" ["b"] "x" (by decide) (by decide) (by decide)

/-! ### Identifier extraction (claim C6) -/

/-- `splitChar` never returns an empty list of segments. -/
lemma splitChar_ne_nil (sep : Char) : ∀ cs : List Char, splitChar sep cs ≠ []
  | [] => by simp [splitChar]
  | c :: rest => by
      unfold splitChar
      cases h : splitChar sep rest with
      | nil => simp
      | cons g gs => by_cases hc : c = sep <;> simp [hc]

/-- The first segment of a split is the prefix before the first
separator. -/
lemma splitChar_headD_takeWhile (sep : Char) :
    ∀ cs : List Char,
    (splitChar sep cs).headD [] = cs.takeWhile (fun c => c != sep)
  | [] => rfl
  | c :: rest => by
      unfold splitChar
      cases h : splitChar sep rest with
      | nil => exact absurd h (splitChar_ne_nil sep rest)
      | cons g gs =>
        have ih := splitChar_headD_takeWhile sep rest
        rw [h] at ih
        by_cases hc : c = sep
        · subst hc
          simp [List.takeWhile_cons]
        · simp [hc, List.takeWhile_cons]
          simpa using ih

/-- C6 is contradicted by the code on comma-free lines: the claim (and
spec step 1 of the candidate filter) say the extracted identifier of a
comma-free line is the whole TRIMMED line, but the source (src line 214)
uses the line unchanged.  On the comma-free line `"foo\n"` the code
extracts `"foo\n"` while the spec's words give `"foo"`. -/
theorem extract_untrimmed_counterexample :
    extractKitten "foo\n" = "foo\n" ∧ specExtractKitten "foo\n" = "foo" ∧
      extractKitten "foo\n" ≠ specExtractKitten "foo\n" := by decide

/-- C6 as amended: the extracted identifier is the text before the first
comma when the line contains a comma, and otherwise the whole line
unchanged (no trimming); in particular `"foo,Yes"` extracts `"foo"`. -/
theorem extract_before_comma_or_whole_line :
    extractKitten "foo,Yes" = "foo" ∧
    (∀ item : String, item.data.contains ',' = false → extractKitten item = item) ∧
    (∀ item : String, item.data.contains ',' = true →
      extractKitten item = String.mk (item.data.takeWhile (fun c => c != ','))) := by
  refine ⟨by decide, ?_, ?_⟩
  · intro item h
    have h2 : ¬ ',' ∈ item.data := by simpa using h
    simp [extractKitten, h2]
  · intro item h
    have h2 : ',' ∈ item.data := by simpa using h
    have hsplit := splitChar_headD_takeWhile ',' item.data
    simp only [List.headD_eq_head?_getD] at hsplit
    simp [extractKitten, h2, hsplit]

/-- Witness for the amended C6 at a concrete input: a comma-free line is
extracted unchanged. -/
theorem extract_whole_line_witness : extractKitten "bar\n" = "bar\n" :=
  extract_before_comma_or_whole_line.2.1 "bar\n" (by decide)

/-! ### The dedup cache (claims C4, C9) -/

/-- Digit characters are digits. -/
lemma digitChar_isDigit : ∀ n, n < 10 → (digitChar n).isDigit = true := by decide

/-- Digit characters decode to their value. -/
lemma dval_digitChar : ∀ n, n < 10 → dval (digitChar n) = n := by decide

/-- Two rendered digits parse back (src `strptime` versus `strftime`). -/
lemma digit2_pad (n : Nat) (h : n ≤ 99) :
    digit2 (digitChar (n / 10)) (digitChar (n % 10)) = some n := by
  have h1 : n / 10 < 10 := by omega
  have h2 : n % 10 < 10 := by omega
  unfold digit2
  rw [digitChar_isDigit _ h1, digitChar_isDigit _ h2,
    dval_digitChar _ h1, dval_digitChar _ h2]
  simp
  omega

/-- Four rendered digits parse back. -/
lemma digit4_pad (n : Nat) (h : n ≤ 9999) :
    digit4 (digitChar (n / 1000)) (digitChar (n / 100 % 10))
      (digitChar (n / 10 % 10)) (digitChar (n % 10)) = some n := by
  have h1 : n / 1000 < 10 := by omega
  have h2 : n / 100 % 10 < 10 := by omega
  have h3 : n / 10 % 10 < 10 := by omega
  have h4 : n % 10 < 10 := by omega
  unfold digit4
  rw [digitChar_isDigit _ h1, digitChar_isDigit _ h2, digitChar_isDigit _ h3,
    digitChar_isDigit _ h4, dval_digitChar _ h1, dval_digitChar _ h2,
    dval_digitChar _ h3, dval_digitChar _ h4]
  simp
  omega

/-- The rendered timestamp, character by character. -/
lemma fmtList_eq (dt : DateTime) :
    fmtList dt =
      [digitChar (dt.year / 1000), digitChar (dt.year / 100 % 10),
       digitChar (dt.year / 10 % 10), digitChar (dt.year % 10), '-',
       digitChar (dt.month / 10), digitChar (dt.month % 10), '-',
       digitChar (dt.day / 10), digitChar (dt.day % 10), 'T',
       digitChar (dt.hour / 10), digitChar (dt.hour % 10), ':',
       digitChar (dt.minute / 10), digitChar (dt.minute % 10), ':',
       digitChar (dt.second / 10), digitChar (dt.second % 10)] := by
  simp [fmtList, pad4L, pad2L]

/-- A rendered timestamp parses back to the same `DateTime`
(`strptime` after `strftime` at this format). -/
lemma parseDTList_fmtList (dt : DateTime) (h : ValidDateTime dt) :
    parseDTList (fmtList dt) = some dt := by
  obtain ⟨hy1, hy2, hm1, hm2, hd1, hd2, hh, hmin, hsec⟩ := h
  rw [fmtList_eq]
  simp only [parseDTList, digit4_pad dt.year (by omega),
    digit2_pad dt.month (by omega), digit2_pad dt.day (by omega),
    digit2_pad dt.hour (by omega), digit2_pad dt.minute (by omega),
    digit2_pad dt.second (by omega)]
  simp only [and_self, if_true, eq_self_iff_true, reduceIte]
  rw [if_pos ⟨hm1, hm2, hd1, hd2, hh, hmin, hsec⟩]

/-- No character of a rendered timestamp is a space. -/
lemma fmtList_no_space (dt : DateTime) (h : ValidDateTime dt) :
    ¬ ' ' ∈ fmtList dt := by
  obtain ⟨hy1, hy2, hm1, hm2, hd1, hd2, hh, hmin, hsec⟩ := h
  have hnd : ∀ n : Nat, n < 10 → ¬ ' ' = digitChar n := by decide
  intro hmem
  rw [fmtList_eq] at hmem
  simp only [List.mem_cons, List.not_mem_nil, or_false] at hmem
  rcases hmem with h | h | h | h | h | h | h | h | h | h | h | h | h | h | h | h | h | h | h <;>
    first
      | exact hnd _ (by omega) h
      | simp at h

/-- A segment without the separator splits into itself. -/
lemma splitChar_no_sep (sep : Char) :
    ∀ cs : List Char, ¬ sep ∈ cs → splitChar sep cs = [cs]
  | [], _ => rfl
  | c :: rest, h => by
      have h1 : ¬ c = sep := fun e => h (by rw [e]; exact List.mem_cons_self _ _)
      have h2 : ¬ sep ∈ rest := fun e => h (List.mem_cons_of_mem _ e)
      unfold splitChar
      rw [splitChar_no_sep sep rest h2]
      simp [h1]

/-- Unfolding equation of `splitChar` on a cons. -/
lemma splitChar_cons (sep c : Char) (rest : List Char) :
    splitChar sep (c :: rest) =
      match splitChar sep rest with
      | [] => [[]]
      | grp :: grps =>
        if c = sep then [] :: grp :: grps else (c :: grp) :: grps := rfl

/-- Splitting a separator-free prefix off. -/
lemma splitChar_append (sep : Char) :
    ∀ k rest : List Char, ¬ sep ∈ k →
    splitChar sep (k ++ sep :: rest) = k :: splitChar sep rest
  | [], rest, _ => by
      simp only [List.nil_append]
      rw [splitChar_cons]
      cases h : splitChar sep rest with
      | nil => exact absurd h (splitChar_ne_nil sep rest)
      | cons g gs => simp [h]
  | c :: k, rest, h => by
      have h1 : ¬ c = sep := fun e => h (by rw [e]; exact List.mem_cons_self _ _)
      have h2 : ¬ sep ∈ k := fun e => h (List.mem_cons_of_mem _ e)
      rw [List.cons_append, splitChar_cons, splitChar_append sep k rest h2]
      simp [h1]

/-- A written cache line parses back to its entry. -/
lemma parseCacheLine_round (p : String × DateTime) (hk : ¬ ' ' ∈ p.1.data)
    (hv : ValidDateTime p.2) : parseCacheLine (cacheLine p) = some p := by
  unfold parseCacheLine cacheLine
  rw [show (String.mk (p.1.data ++ ' ' :: fmtList p.2)).data =
        p.1.data ++ ' ' :: fmtList p.2 from rfl]
  rw [splitChar_append ' ' p.1.data (fmtList p.2) hk,
    splitChar_no_sep ' ' (fmtList p.2) (fmtList_no_space p.2 hv)]
  simp [parseDTList_fmtList p.2 hv]

/-- Every written cache file parses entirely. -/
lemma parseLines_writeCache :
    ∀ cache : List (String × DateTime),
    (∀ p ∈ cache, ¬ ' ' ∈ p.1.data ∧ ValidDateTime p.2) →
    parseLines (writeCache cache) = some cache
  | [], _ => rfl
  | p :: rest, h => by
      have hp := h p (List.mem_cons_self _ _)
      have hrest :=
        parseLines_writeCache rest (fun q hq => h q (List.mem_cons_of_mem _ hq))
      simp only [writeCache, List.map_cons] at hrest ⊢
      simp [parseLines, parseCacheLine_round p hp.1 hp.2, hrest]

/-- Inserting an unbound key appends it. -/
lemma upsert_not_mem (m : List (String × DateTime)) (k : String) (v : DateTime)
    (h : ∀ p ∈ m, ¬ p.1 = k) : upsert m k v = m ++ [(k, v)] := by
  have hc : m.any (fun p => p.1 == k) = false := by
    rw [List.any_eq_false]
    intro p hp
    simpa using h p hp
  unfold upsert
  simp [hc]

/-- The dict built by the load loop, when the file's keys are distinct,
is exactly the source entries with the stale ones filtered out. -/
lemma loadCacheEntries_go (now : DateTime) :
    ∀ (entries acc : List (String × DateTime)),
    ((acc ++ entries).map Prod.fst).Nodup →
    entries.foldl (cacheInsertFresh now) acc =
      acc ++ entries.filter (fun e => decide (elapsedSecs now e.2 ≤ 3600))
  | [], acc, _ => by simp
  | e :: rest, acc, h => by
      by_cases hf : elapsedSecs now e.2 ≤ 3600
      · have hkey : ∀ p ∈ acc, ¬ p.1 = e.1 := by
          intro p hp hpe
          rw [List.map_append] at h
          rcases List.nodup_append.mp h with ⟨h1, h2, hdisj⟩
          exact hdisj (List.mem_map.mpr ⟨p, hp, rfl⟩)
            (by rw [hpe]; exact List.mem_map.mpr ⟨e, List.mem_cons_self _ _, rfl⟩)
        have step1 : cacheInsertFresh now acc e = acc ++ [e] := by
          unfold cacheInsertFresh
          rw [if_pos hf, upsert_not_mem acc e.1 e.2 hkey]
        have hnd2 : (((acc ++ [e]) ++ rest).map Prod.fst).Nodup := by
          rw [List.append_assoc]
          simpa using h
        have ih := loadCacheEntries_go now rest (acc ++ [e]) hnd2
        simp only [List.foldl_cons, step1]
        rw [ih]
        simp [List.filter_cons, hf]
      · have step1 : cacheInsertFresh now acc e = acc := by
          unfold cacheInsertFresh
          rw [if_neg hf]
        have hsub : List.Sublist (acc ++ rest) (acc ++ e :: rest) :=
          List.Sublist.append_left (List.sublist_cons_self e rest) acc
        have hnd2 : ((acc ++ rest).map Prod.fst).Nodup :=
          List.Nodup.sublist (List.Sublist.map Prod.fst hsub) h
        have ih := loadCacheEntries_go now rest acc hnd2
        simp only [List.foldl_cons, step1]
        rw [ih]
        simp [List.filter_cons, hf]

/-- `loadCacheEntries` on distinct keys is a pure filter on freshness. -/
lemma loadCacheEntries_filter (now : DateTime)
    (entries : List (String × DateTime)) (h : (entries.map Prod.fst).Nodup) :
    loadCacheEntries now entries =
      entries.filter (fun e => decide (elapsedSecs now e.2 ≤ 3600)) := by
  have hg := loadCacheEntries_go now entries [] (by simpa using h)
  simpa [loadCacheEntries] using hg

/-- C4: a persisted cache entry is retained by the load exactly when its
elapsed time since now is at most 3600 seconds — the boundary is
inclusive. -/
theorem cache_retention_inclusive_3600 :
    ∀ (now : DateTime) (entries : List (String × DateTime))
      (e : String × DateTime),
    (entries.map Prod.fst).Nodup → e ∈ entries →
    (e ∈ loadCacheEntries now entries ↔ elapsedSecs now e.2 ≤ 3600) := by
  intro now entries e hnd hmem
  rw [loadCacheEntries_filter now entries hnd]
  constructor
  · intro hf
    have := List.of_mem_filter hf
    simpa using this
  · intro hle
    exact List.mem_filter.mpr ⟨hmem, by simpa using hle⟩

/-- Witness for C4 at a concrete input: an entry 1555 seconds old is
retained. -/
theorem cache_retention_witness :
    (("host1", (⟨2020, 1, 2, 3, 4, 5⟩ : DateTime)) ∈
        loadCacheEntries ⟨2020, 1, 2, 3, 30, 0⟩
          [("host1", ⟨2020, 1, 2, 3, 4, 5⟩)]) ↔
      elapsedSecs ⟨2020, 1, 2, 3, 30, 0⟩
          ("host1", (⟨2020, 1, 2, 3, 4, 5⟩ : DateTime)).2 ≤ 3600 :=
  cache_retention_inclusive_3600 ⟨2020, 1, 2, 3, 30, 0⟩
    [("host1", ⟨2020, 1, 2, 3, 4, 5⟩)] ("host1", ⟨2020, 1, 2, 3, 4, 5⟩)
    (by decide) (by decide)

/-- C9: `writeCache` emits one line per entry in the format
`"<identifier> <YYYY-MM-DDTHH:MM:SS>"`, and for a cache mapping whose
identifiers contain no space or newline and whose (whole-second, valid)
timestamps are within 3600 seconds of now, saving and re-loading returns
the same mapping. -/
theorem save_load_roundtrip :
    ∀ (now : DateTime) (cache : List (String × DateTime)),
    (cache.map Prod.fst).Nodup →
    (∀ p ∈ cache, ¬ ' ' ∈ p.1.data ∧ ¬ '\n' ∈ p.1.data ∧ ValidDateTime p.2 ∧
      0 ≤ elapsedSecs now p.2 ∧ elapsedSecs now p.2 ≤ 3600) →
    (writeCache cache).length = cache.length ∧
      loadCache now (writeCache cache) = some cache := by
  intro now cache hnd h
  constructor
  · simp [writeCache]
  · unfold loadCache
    rw [parseLines_writeCache cache (fun p hp => ⟨(h p hp).1, (h p hp).2.2.1⟩)]
    show some (loadCacheEntries now cache) = some cache
    rw [loadCacheEntries_filter now cache hnd]
    have hself : cache.filter (fun e => decide (elapsedSecs now e.2 ≤ 3600)) =
        cache :=
      List.filter_eq_self.mpr (fun p hp => by simpa using (h p hp).2.2.2.2)
    rw [hself]

/-- Witness for C9 at a concrete input: a one-entry cache survives the
save/load round-trip. -/
theorem save_load_roundtrip_witness :
    (writeCache [("host1", (⟨2020, 1, 2, 3, 4, 5⟩ : DateTime))]).length =
        [("host1", (⟨2020, 1, 2, 3, 4, 5⟩ : DateTime))].length ∧
      loadCache ⟨2020, 1, 2, 3, 30, 0⟩
          (writeCache [("host1", ⟨2020, 1, 2, 3, 4, 5⟩)]) =
        some [("host1", ⟨2020, 1, 2, 3, 4, 5⟩)] :=
  save_load_roundtrip ⟨2020, 1, 2, 3, 30, 0⟩
    [("host1", ⟨2020, 1, 2, 3, 4, 5⟩)] (by decide) (by decide)
